import Mathlib

/-!
Shallow embedding of `unused/unused_func_finder.go` (package `unused` of
go-oracle-tools): an unused-function finder wrapping the go `oracle` tool.

Go strings are modelled as Lean `String`, Go slices as `List`, the two Go
maps (`filesByCaller map[string][]string`, `pkgs map[string]struct{}`) as an
association list and an insertion-ordered duplicate-free list.  Fallible Go
functions return `GoRes`; a slice-index panic is the `GoRes.panic` value and
is propagated, never caught.  The external collaborators (the oracle query,
the filesystem walk, the parser) are inputs: a run receives, for each file
argument, the parse outcome and the `filepath.Abs` outcome that the real
program would obtain from the OS, and the oracle is a function parameter.
The log sink (`LogWriter`) is a `List String` accumulated in the state, and
an `oracleCalls` counter instruments how often the oracle query is invoked.
-/

/-- Outcome of a fallible Go computation: normal value, `error` return, or a
runtime panic (here only the slice-index panic in `getFullPkgName`). -/
inductive GoRes (α : Type) where
  | ok (a : α)
  | err (msg : String)
  | panic
deriving Repr, DecidableEq

/-- `UnusedThing` from the source: a (function name, defining file) record. -/
structure UnusedThing where
  Name : String
  File : String
deriving Repr, DecidableEq

/-- One callgraph node as consumed from `serial.CallGraph`: the qualified
name and the source position (the `Children` field is never read). -/
structure CGEntry where
  Name : String
  Pos : String
deriving Repr, DecidableEq

/-- `UnusedThing.String()`: `"<name> in '<file>'"` when the file is known. -/
def UnusedThing.render (ut : UnusedThing) : String :=
  if ut.File ≠ "" then ut.Name ++ " in " ++ "\x27" ++ ut.File ++ "\x27" else ut.Name

/-- The `UnusedFuncFinder` struct: configuration fields plus the private
run state, with the log sink and the oracle-invocation counter made
explicit. -/
structure UnusedFuncFinder where
  Callgraph : List CGEntry
  Ignore : String
  Verbose : Bool
  IncludeAll : Bool
  Idents : Bool
  filesByCaller : List (String × List String)
  pkgs : List String
  funcs : List UnusedThing
  numFilesRead : Nat
  log : List String
  oracleCalls : Nat
deriving Repr, DecidableEq

/-- `NewUnusedFunctionFinder`: zero-valued flags, empty private storage. -/
def NewUnusedFunctionFinder : UnusedFuncFinder :=
  { Callgraph := [], Ignore := "", Verbose := false, IncludeAll := false,
    Idents := false, filesByCaller := [], pkgs := [], funcs := [],
    numFilesRead := 0, log := [], oracleCalls := 0 }

/-- `Errorf`: unconditionally writes a line to the log sink. -/
def Errorf (uff : UnusedFuncFinder) (msg : String) : UnusedFuncFinder :=
  { uff with log := uff.log ++ [msg] }

/-- `Logf`: writes a line to the log sink only in verbose mode. -/
def Logf (uff : UnusedFuncFinder) (msg : String) : UnusedFuncFinder :=
  if uff.Verbose then Errorf uff msg else uff

/-- Set-insert into the `pkgs` hash set (`uff.pkgs[pkgName] = struct{}{}`):
adding a key already present changes nothing. -/
def insertPkg (l : List String) (p : String) : List String :=
  if p ∈ l then l else l ++ [p]

/-- `AddPkg`: register a package name in the package set and log it. -/
def AddPkg (uff : UnusedFuncFinder) (pkgName : String) : UnusedFuncFinder :=
  Logf { uff with pkgs := insertPkg uff.pkgs pkgName } ("Found pkg " ++ pkgName)

/-- `pkgsAsArray`: the package set as a slice. -/
def pkgsAsArray (uff : UnusedFuncFinder) : List String := uff.pkgs

/-- `strings.Contains(hay, needle)` on character lists. -/
def goContainsL : List Char → List Char → Bool
  | hay, needle =>
    if needle.isPrefixOf hay then true
    else
      match hay with
      | [] => false
      | _ :: t => goContainsL t needle

/-- `strings.Contains(s, sub)`. -/
def goContains (s sub : String) : Bool := goContainsL s.data sub.data

/-- `strings.HasSuffix(s, suf)`. -/
def goHasSuffix (s suf : String) : Bool := suf.data.isSuffixOf s.data

/-- `strings.HasPrefix(s, pre)`. -/
def goHasPrefix (s pre : String) : Bool := pre.data.isPrefixOf s.data

/-- `strings.TrimPrefix(s, pre)`. -/
def goTrimPrefix (s pre : String) : String :=
  if goHasPrefix s pre then String.mk (s.data.drop pre.data.length) else s

/-- The characters after the last `'.'`, or `none` when there is no dot:
the `name[strings.LastIndex(name, ".")+1:]` computation of `buildFileMap`,
with `none` standing for `LastIndex == -1`. -/
def afterLastDot : List Char → Option (List Char)
  | [] => none
  | c :: rest =>
    match afterLastDot rest with
    | some r => some r
    | none => if c = '.' then some rest else none

/-- Short name of a qualified callgraph name: the substring after the last
package separator, `none` when no separator occurs. -/
def shortNameOf (s : String) : Option String :=
  (afterLastDot s.data).map String.mk

/-- Lookup in the association-list model of a Go `map[string][]string`;
`none` is the `ok == false` case of `files, ok := m[k]`. -/
def mapLookup : List (String × List String) → String → Option (List String)
  | [], _ => none
  | (k', vs) :: rest, k => if k' = k then some vs else mapLookup rest k

/-- `m[k] = append(m[k], v)`: append `v` to the entry of `k`, creating the
entry (from the nil slice) when absent. -/
def mapAppend : List (String × List String) → String → String → List (String × List String)
  | [], k, v => [(k, [v])]
  | (k', vs) :: rest, k, v =>
    if k' = k then (k', vs ++ [v]) :: rest
    else (k', vs) :: mapAppend rest k v

/-- One iteration of the `buildFileMap` loop on one callgraph entry. -/
def buildFileMapStep (m : List (String × List String)) (entry : CGEntry) :
    List (String × List String) :=
  match shortNameOf entry.Name with
  | none => m
  | some short => mapAppend m short entry.Pos

/-- `buildFileMap`: fold the callgraph entries into `filesByCaller`. -/
def buildFileMap (uff : UnusedFuncFinder) : UnusedFuncFinder :=
  { uff with filesByCaller := uff.Callgraph.foldl buildFileMapStep uff.filesByCaller }

/-- `isInCG`: the record is "used" when its short name is in the caller
index and some recorded position contains its file as a substring. -/
def isInCG (uff : UnusedFuncFinder) (f : UnusedThing) : Bool :=
  match mapLookup uff.filesByCaller f.Name with
  | none => false
  | some files => files.any (fun path => goContains path f.File)

/-- `computeUnusedFuncs`: keep, in order, the collected records not found
in the callgraph. -/
def computeUnusedFuncs (uff : UnusedFuncFinder) : List UnusedThing :=
  uff.funcs.filter (fun f => !isInCG uff f)

/-- Split a character list at every occurrence of `sep`; always returns at
least one (possibly empty) group. -/
def splitCharsOn (sep : Char) : List Char → List (List Char)
  | [] => [[]]
  | c :: rest =>
    if c = sep then [] :: splitCharsOn sep rest
    else
      match splitCharsOn sep rest with
      | [] => [[c]]
      | g :: gs => (c :: g) :: gs

/-- `filepath.SplitList` (Unix list separator `':'`): the empty string
yields the empty slice, otherwise the string is split on `':'`. -/
def splitList (s : String) : List String :=
  if s = "" then [] else (splitCharsOn ':' s.data).map String.mk

/-- `filepath.Join(p, "src") + string(filepath.Separator)`.  The path
cleaning done by `filepath.Join` is simplified to plain concatenation; no
claim below depends on the cleaning, only on the prefix test's outcome. -/
def joinSrcSep (p : String) : String := p ++ "/src/"

/-- `filepath.Dir`, simplified to the text before the last separator (`"."`
when there is none); the `Clean` normalization is not modelled and no claim
below depends on the returned text. -/
def dirOf (s : String) : String :=
  match (splitCharsOn '/' s.data).dropLast with
  | [] => "."
  | parts => String.intercalate "/" (parts.map String.mk)

/-- `getFullPkgName(filename)`.  The result of `filepath.Abs(filename)` is
supplied as `absRes` (its failure is an OS-level condition).  The loop
strips the first matching `<gopath entry>/src/` prefix; when no entry
matches, the error message indexes `goPaths[len(goPaths)-1]`, which panics
when the GOPATH list is empty. -/
def getFullPkgName (goPaths : List String) (absRes : Except String String) :
    GoRes String :=
  match absRes with
  | .error e => .err e
  | .ok abs =>
    match goPaths.find? (fun p => goHasPrefix abs (joinSrcSep p)) with
    | some p => .ok (dirOf (goTrimPrefix abs (joinSrcSep p)))
    | none =>
      match goPaths.getLast? with
      | some lastP => .err ("cd " ++ "\x27" ++ lastP ++ "\x27" ++ " and try again")
      | none => .panic

/-- One parsed source file, as the `go/parser` capability yields it: the
package-clause name and the names of the `*ast.FuncDecl` nodes in the order
`ast.Inspect` visits them. -/
structure ParsedFile where
  pkgName : String
  funcDecls : List String
deriving Repr, DecidableEq

/-- One source file presented to the finder: its path, the outcome of
`filepath.Abs` on that path, and the parse outcome (`Except.error` is the
`parser.ParseFile` failure). -/
structure SourceFile where
  filename : String
  absRes : Except String String
  parsed : Except String ParsedFile
deriving Repr

/-- The `ast.Inspect` body of `readFuncsAndImportsFromFile`: a `FuncDecl`
name is recorded unless it is empty, contains `"Test"`, or equals `"main"`,
`"init"` or `"test"`. -/
def collectNewFuncs (filename : String) (decls : List String) : List UnusedThing :=
  decls.filterMap (fun s =>
    if s = "" then none
    else if goContains s "Test" then none
    else if s = "main" then none
    else if s = "init" then none
    else if s = "test" then none
    else some ⟨s, filename⟩)

/-- `readFuncsAndImportsFromFile`: parse the file; when its package is
`main` (or include-all mode is on) resolve and register its package,
returning early on a resolution error; then record the surviving function
declarations and bump the files-read counter. -/
def readFuncsAndImportsFromFile (goPaths : List String) (uff : UnusedFuncFinder)
    (file : SourceFile) : UnusedFuncFinder × GoRes Unit :=
  match file.parsed with
  | .error e => (uff, .err e)
  | .ok f =>
    let afterPkg : UnusedFuncFinder → UnusedFuncFinder × GoRes Unit := fun u =>
      ({ u with funcs := u.funcs ++ collectNewFuncs file.filename f.funcDecls,
                numFilesRead := u.numFilesRead + 1 }, .ok ())
    if f.pkgName = "main" || uff.IncludeAll then
      match getFullPkgName goPaths file.absRes with
      | .err e => (uff, .err ("error getting main package path: " ++ e))
      | .panic => (uff, .panic)
      | .ok pkg => afterPkg (AddPkg uff pkg)
    else afterPkg uff

/-- `canReadSourceFile`: reject paths containing the ignore substring and
paths without the `.go` suffix. -/
def canReadSourceFile (uff : UnusedFuncFinder) (filename : String) : Bool :=
  if uff.Ignore ≠ "" && goContains filename uff.Ignore then false
  else if !goHasSuffix filename ".go" then false
  else true

/-- One entry handed to the `filepath.Walk` callback in `readDir`: the
incoming walk error (if any), whether the entry is a directory, and the
file at that path. -/
structure WalkEntry where
  walkErrMsg : Option String
  isDirInfo : Bool
  file : SourceFile
deriving Repr

/-- `readDir`: `filepath.Walk` over the directory's entries in walk order.
The callback returns the incoming walk error, or the result of reading an
eligible regular file; a non-nil callback result stops the walk and becomes
the result of `readDir`. -/
def readDir (goPaths : List String) (uff : UnusedFuncFinder) :
    List WalkEntry → UnusedFuncFinder × GoRes Unit
  | [] => (uff, .ok ())
  | e :: rest =>
    let step : UnusedFuncFinder × GoRes Unit :=
      match e.walkErrMsg with
      | some m => (uff, .err m)
      | none =>
        if !e.isDirInfo && canReadSourceFile uff e.file.filename then
          readFuncsAndImportsFromFile goPaths uff e.file
        else (uff, .ok ())
    match step with
    | (u, .ok _) => readDir goPaths u rest
    | other => other

/-- The oracle collaborator: maps the queried package list to an error or
to the serialized result's `Callgraph` field (`none` models a nil field). -/
def OracleQuery : Type := List String → Except String (Option (List CGEntry))

/-- `getCallgraphFromOracle`: query the oracle over the collected package
set, fail when the query fails or returns a nil callgraph, otherwise store
the callgraph.  The invocation counter records that the query ran. -/
def getCallgraphFromOracle (oracle : OracleQuery) (uff : UnusedFuncFinder) :
    UnusedFuncFinder × GoRes Unit :=
  let u := { uff with oracleCalls := uff.oracleCalls + 1 }
  match oracle (pkgsAsArray u) with
  | .error e => (u, .err e)
  | .ok none => (u, .err "no callgraph present in oracle results")
  | .ok (some cg) => ({ u with Callgraph := cg }, .ok ())

/-- Modelled from the spec: `findUnusedIdents` is called from `Run` but its
definition is not among the provided source files.  Per the spec's
identifier-mode contract, it returns the collected declarations directly,
without invoking the Reachability Graph Source. -/
def findUnusedIdents (uff : UnusedFuncFinder) :
    UnusedFuncFinder × GoRes (List UnusedThing) :=
  (uff, .ok uff.funcs)

/-- One element of `Run`'s `fileArgs`, together with what the filesystem
holds there: a directory (with its walk entries) or a regular file.  The
`isDir` stat in `Run` is modelled by the constructor. -/
inductive RunInput where
  | dir (dirname : String) (entries : List WalkEntry)
  | file (f : SourceFile)
deriving Repr

/-- The collection loop body of `Run` for one file argument: directory and
file read errors are logged and swallowed (`Continuing...`); a panic
propagates.  The boolean is true when a panic escaped. -/
def collectInput (goPaths : List String) (uff : UnusedFuncFinder) :
    RunInput → UnusedFuncFinder × Bool
  | .dir dirname entries =>
    match readDir goPaths uff entries with
    | (u, .ok _) => (u, false)
    | (u, .err e) =>
      (Errorf (Errorf u ("Error reading " ++ "\x27" ++ dirname ++ "\x27" ++
        " directory: " ++ e)) "Continuing...", false)
    | (u, .panic) => (u, true)
  | .file f =>
    if canReadSourceFile uff f.filename then
      match readFuncsAndImportsFromFile goPaths uff f with
      | (u, .ok _) => (u, false)
      | (u, .err e) =>
        (Errorf (Errorf u ("Error reading " ++ "\x27" ++ f.filename ++ "\x27" ++
          " file: " ++ e)) "Continuing...", false)
      | (u, .panic) => (u, true)
    else (uff, false)

/-- The collection loop of `Run` over all file arguments. -/
def collectAll (goPaths : List String) (uff : UnusedFuncFinder) :
    List RunInput → UnusedFuncFinder × Bool
  | [] => (uff, false)
  | inp :: rest =>
    match collectInput goPaths uff inp with
    | (u, false) => collectAll goPaths u rest
    | (u, true) => (u, true)

/-- `Run`: sanity-check the arguments and `GOPATH`, collect declarations
from every file argument, then either short-circuit to identifier mode or
query the oracle, build the caller index and diff the declarations against
it.  `gopath` is the value of `os.Getenv("GOPATH")`. -/
def Run (oracle : OracleQuery) (gopath : String) (uff : UnusedFuncFinder)
    (fileArgs : List RunInput) : UnusedFuncFinder × GoRes (List UnusedThing) :=
  if fileArgs.isEmpty then
    (Errorf uff "Must supply at least one file as an argument",
     .err "no files supplied as arguments")
  else if gopath = "" then
    (Errorf uff "GOPATH environment varaible is not set", .err "GOPATH not set")
  else
    match collectAll (splitList gopath) uff fileArgs with
    | (u, true) => (u, .panic)
    | (u, false) =>
      if u.Idents then findUnusedIdents u
      else
        match getCallgraphFromOracle oracle u with
        | (u2, .err e) =>
          (Errorf u2 ("Error getting results from oracle: " ++ e), .err e)
        | (u2, .panic) => (u2, .panic)
        | (u2, .ok _) =>
          let u3 := buildFileMap u2
          (u3, .ok (computeUnusedFuncs u3))

/-! ### Helper lemmas -/

theorem Errorf_pres (uff : UnusedFuncFinder) (m : String) :
    (Errorf uff m).oracleCalls = uff.oracleCalls ∧ (Errorf uff m).Idents = uff.Idents := by
  simp [Errorf]

theorem Logf_pres (uff : UnusedFuncFinder) (m : String) :
    (Logf uff m).oracleCalls = uff.oracleCalls ∧ (Logf uff m).Idents = uff.Idents := by
  unfold Logf
  split <;> simp [Errorf]

theorem AddPkg_pres (uff : UnusedFuncFinder) (p : String) :
    (AddPkg uff p).oracleCalls = uff.oracleCalls ∧ (AddPkg uff p).Idents = uff.Idents := by
  unfold AddPkg Logf
  split <;> simp [Errorf]

theorem readFuncs_pres (gp : List String) (uff : UnusedFuncFinder) (f : SourceFile) :
    ((readFuncsAndImportsFromFile gp uff f).fst).oracleCalls = uff.oracleCalls ∧
    ((readFuncsAndImportsFromFile gp uff f).fst).Idents = uff.Idents := by
  unfold readFuncsAndImportsFromFile
  cases hp : f.parsed with
  | error e => simp
  | ok pf =>
    simp only []
    split
    · cases hg : getFullPkgName gp f.absRes with
      | err e => simp [hg]
      | panic => simp [hg]
      | ok pkg =>
        have h := AddPkg_pres uff pkg
        simp [hg, h.1, h.2]
    · simp

theorem readDir_pres (gp : List String) (uff : UnusedFuncFinder) (es : List WalkEntry) :
    ((readDir gp uff es).fst).oracleCalls = uff.oracleCalls ∧
    ((readDir gp uff es).fst).Idents = uff.Idents := by
  induction es generalizing uff with
  | nil => simp [readDir]
  | cons e rest ih =>
    rcases e with ⟨w, d, file⟩
    cases w with
    | some m => simp [readDir]
    | none =>
      by_cases hc : (!d && canReadSourceFile uff file.filename) = true
      · rcases hr : readFuncsAndImportsFromFile gp uff file with ⟨u, r⟩
        have hp := readFuncs_pres gp uff file
        rw [hr] at hp
        cases r with
        | ok a =>
          have hi := ih u
          simp only [readDir, hc, if_true, hr]
          exact ⟨hi.1.trans hp.1, hi.2.trans hp.2⟩
        | err m =>
          simp only [readDir, hc, if_true, hr]
          exact ⟨hp.1, hp.2⟩
        | panic =>
          simp only [readDir, hc, if_true, hr]
          exact ⟨hp.1, hp.2⟩
      · have hc' : (!d && canReadSourceFile uff file.filename) = false := by
          simpa using hc
        simp only [readDir, hc', if_false]
        exact ih uff

theorem collectInput_pres (gp : List String) (uff : UnusedFuncFinder) (inp : RunInput) :
    ((collectInput gp uff inp).fst).oracleCalls = uff.oracleCalls ∧
    ((collectInput gp uff inp).fst).Idents = uff.Idents := by
  cases inp with
  | dir d es =>
    rcases hr : readDir gp uff es with ⟨u, r⟩
    have hp := readDir_pres gp uff es
    rw [hr] at hp
    cases r with
    | ok a => simp only [collectInput, hr]; exact ⟨hp.1, hp.2⟩
    | err m => simp only [collectInput, hr]; simp [Errorf]; exact ⟨hp.1, hp.2⟩
    | panic => simp only [collectInput, hr]; exact ⟨hp.1, hp.2⟩
  | file f =>
    by_cases hc : canReadSourceFile uff f.filename = true
    · rcases hr : readFuncsAndImportsFromFile gp uff f with ⟨u, r⟩
      have hp := readFuncs_pres gp uff f
      rw [hr] at hp
      cases r with
      | ok a => simp only [collectInput, hc, if_true, hr]; exact ⟨hp.1, hp.2⟩
      | err m => simp only [collectInput, hc, if_true, hr]; simp [Errorf]; exact ⟨hp.1, hp.2⟩
      | panic => simp only [collectInput, hc, if_true, hr]; exact ⟨hp.1, hp.2⟩
    · have hc' : canReadSourceFile uff f.filename = false := by simpa using hc
      simp [collectInput, hc']

theorem collectAll_pres (gp : List String) (uff : UnusedFuncFinder) (args : List RunInput) :
    ((collectAll gp uff args).fst).oracleCalls = uff.oracleCalls ∧
    ((collectAll gp uff args).fst).Idents = uff.Idents := by
  induction args generalizing uff with
  | nil => simp [collectAll]
  | cons inp rest ih =>
    rcases hc : collectInput gp uff inp with ⟨u, b⟩
    have hp := collectInput_pres gp uff inp
    rw [hc] at hp
    cases b with
    | true => simp only [collectAll, hc]; exact ⟨hp.1, hp.2⟩
    | false =>
      have hi := ih u
      simp only [collectAll, hc]
      exact ⟨hi.1.trans hp.1, hi.2.trans hp.2⟩

theorem splitCharsOn_ne_nil (sep : Char) (l : List Char) : splitCharsOn sep l ≠ [] := by
  induction l with
  | nil => simp [splitCharsOn]
  | cons c rest ih =>
    unfold splitCharsOn
    split
    · simp
    · cases h : splitCharsOn sep rest with
      | nil => simp
      | cons g gs => simp

theorem splitList_ne_nil (s : String) (h : s ≠ "") : splitList s ≠ [] := by
  unfold splitList
  rw [if_neg h]
  simp [splitCharsOn_ne_nil]

theorem getFullPkgName_ne_panic (gp : List String) (r : Except String String)
    (h : gp ≠ []) : getFullPkgName gp r ≠ GoRes.panic := by
  unfold getFullPkgName
  cases r with
  | error e => simp
  | ok abs =>
    simp only []
    cases hf : gp.find? (fun p => goHasPrefix abs (joinSrcSep p)) with
    | some p => simp
    | none =>
      simp only []
      cases hl : gp.getLast? with
      | some lastP => simp
      | none => exact absurd (List.getLast?_eq_none_iff.mp hl) h

theorem readFuncs_snd_ne_panic (gp : List String) (uff : UnusedFuncFinder)
    (f : SourceFile) (h : gp ≠ []) :
    (readFuncsAndImportsFromFile gp uff f).snd ≠ GoRes.panic := by
  unfold readFuncsAndImportsFromFile
  cases hp : f.parsed with
  | error e => simp
  | ok pf =>
    simp only []
    split
    · cases hg : getFullPkgName gp f.absRes with
      | err e => simp [hg]
      | panic => exact absurd hg (getFullPkgName_ne_panic gp f.absRes h)
      | ok pkg => simp [hg]
    · simp

theorem readDir_snd_ne_panic (gp : List String) (uff : UnusedFuncFinder)
    (es : List WalkEntry) (h : gp ≠ []) :
    (readDir gp uff es).snd ≠ GoRes.panic := by
  induction es generalizing uff with
  | nil => simp [readDir]
  | cons e rest ih =>
    rcases e with ⟨w, d, file⟩
    cases w with
    | some m => simp [readDir]
    | none =>
      by_cases hc : (!d && canReadSourceFile uff file.filename) = true
      · rcases hr : readFuncsAndImportsFromFile gp uff file with ⟨u, r⟩
        have hnp := readFuncs_snd_ne_panic gp uff file h
        rw [hr] at hnp
        cases r with
        | ok a => simp only [readDir, hc, if_true, hr]; exact ih u
        | err m => simp [readDir, hc, hr]
        | panic => exact absurd rfl hnp
      · have hc' : (!d && canReadSourceFile uff file.filename) = false := by
          simpa using hc
        simp only [readDir, hc', if_false]
        exact ih uff

theorem collectInput_snd_false (gp : List String) (uff : UnusedFuncFinder)
    (inp : RunInput) (h : gp ≠ []) : (collectInput gp uff inp).snd = false := by
  cases inp with
  | dir d es =>
    rcases hr : readDir gp uff es with ⟨u, r⟩
    have hnp := readDir_snd_ne_panic gp uff es h
    rw [hr] at hnp
    cases r with
    | ok a => simp [collectInput, hr]
    | err m => simp [collectInput, hr]
    | panic => exact absurd rfl hnp
  | file f =>
    by_cases hc : canReadSourceFile uff f.filename = true
    · rcases hr : readFuncsAndImportsFromFile gp uff f with ⟨u, r⟩
      have hnp := readFuncs_snd_ne_panic gp uff f h
      rw [hr] at hnp
      cases r with
      | ok a => simp [collectInput, hc, hr]
      | err m => simp [collectInput, hc, hr]
      | panic => exact absurd rfl hnp
    · have hc' : canReadSourceFile uff f.filename = false := by simpa using hc
      simp [collectInput, hc']

theorem collectAll_snd_false (gp : List String) (uff : UnusedFuncFinder)
    (args : List RunInput) (h : gp ≠ []) : (collectAll gp uff args).snd = false := by
  induction args generalizing uff with
  | nil => simp [collectAll]
  | cons inp rest ih =>
    rcases hc : collectInput gp uff inp with ⟨u, b⟩
    have hb := collectInput_snd_false gp uff inp h
    rw [hc] at hb
    cases b with
    | true => simp at hb
    | false => simp only [collectAll, hc]; exact ih u

/-- The position list recorded for key `k` (`[]` both for a missing key and
for an empty entry, as for Go's nil slice). -/
def lookupD (m : List (String × List String)) (k : String) : List String :=
  (mapLookup m k).getD []

theorem lookupD_mapAppend (m : List (String × List String)) (k v q : String) :
    lookupD (mapAppend m k v) q =
      if k = q then lookupD m q ++ [v] else lookupD m q := by
  induction m with
  | nil =>
    by_cases h : k = q <;> simp [lookupD, mapAppend, mapLookup, h]
  | cons hd rest ih =>
    rcases hd with ⟨k', vs⟩
    by_cases h1 : k' = k
    · subst h1
      by_cases h2 : k' = q
      · subst h2; simp [lookupD, mapAppend, mapLookup]
      · simp [lookupD, mapAppend, mapLookup, h2]
    · by_cases h2 : k' = q
      · subst h2
        have hk : k ≠ k' := fun h => h1 h.symm
        simp [lookupD, mapAppend, mapLookup, h1, hk]
      · simp [lookupD, mapAppend, mapLookup, h1, h2] at ih ⊢
        exact ih

/-- The contribution of one callgraph entry to the position list of `k`. -/
def entryContrib (k : String) (e : CGEntry) : Option String :=
  match shortNameOf e.Name with
  | some short => if short = k then some e.Pos else none
  | none => none

theorem foldl_buildFileMapStep_lookupD (entries : List CGEntry)
    (m : List (String × List String)) (k : String) :
    lookupD (entries.foldl buildFileMapStep m) k =
      lookupD m k ++ entries.filterMap (entryContrib k) := by
  induction entries generalizing m with
  | nil => simp
  | cons e rest ih =>
    rw [List.foldl_cons, ih]
    unfold buildFileMapStep entryContrib
    cases hs : shortNameOf e.Name with
    | none => simp [List.filterMap_cons, hs]
    | some short =>
      simp only []
      rw [lookupD_mapAppend]
      by_cases h : short = k
      · simp [List.filterMap_cons, hs, h]
      · simp [List.filterMap_cons, hs, h]

theorem mem_collectNewFuncs {fn : String} {decls : List String} {t : UnusedThing} :
    t ∈ collectNewFuncs fn decls ↔
      t.Name ∈ decls ∧ t.File = fn ∧ t.Name ≠ "" ∧
      goContains t.Name "Test" = false ∧
      t.Name ≠ "main" ∧ t.Name ≠ "init" ∧ t.Name ≠ "test" := by
  unfold collectNewFuncs
  rw [List.mem_filterMap]
  constructor
  · rintro ⟨a, ha, hf⟩
    revert hf
    split_ifs with h1 h2 h3 h4 h5 <;> intro hf
    · exact absurd hf (by simp)
    · exact absurd hf (by simp)
    · exact absurd hf (by simp)
    · exact absurd hf (by simp)
    · exact absurd hf (by simp)
    · injection hf with h
      subst h
      exact ⟨ha, rfl, h1, by simpa using h2, h3, h4, h5⟩
  · rintro ⟨hmem, hfile, h1, h2, h3, h4, h5⟩
    refine ⟨t.Name, hmem, ?_⟩
    rw [if_neg h1, if_neg (by simp [h2]), if_neg h3, if_neg h4, if_neg h5]
    cases t with
    | mk n f =>
      simp only [] at hfile
      rw [hfile]

/-! ### The claims -/

/-- A sample run state for witnesses: two collected declarations, a caller
index naming only `foo` at a position containing its file. -/
def sampleUff1 : UnusedFuncFinder :=
  { NewUnusedFunctionFinder with
    funcs := [⟨"foo", "/go/src/proj/main.go"⟩, ⟨"bar", "/go/src/proj/main.go"⟩],
    filesByCaller := [("foo", ["/go/src/proj/main.go:3:1"])] }

/-- C1: a collected declaration `d` is among the findings of the Unused-Set
Computer iff its name is absent from the caller index or no recorded
position for its name contains its file as a substring; in particular, a
position containing the file keeps `d` out of the findings. -/
theorem computeUnusedFuncs_mem_iff (uff : UnusedFuncFinder) (d : UnusedThing)
    (hd : d ∈ uff.funcs) :
    (d ∈ computeUnusedFuncs uff ↔
      (mapLookup uff.filesByCaller d.Name = none ∨
        ∀ ps, mapLookup uff.filesByCaller d.Name = some ps →
          ∀ p ∈ ps, goContains p d.File = false)) ∧
    (∀ ps, mapLookup uff.filesByCaller d.Name = some ps →
      (∃ p ∈ ps, goContains p d.File = true) → d ∉ computeUnusedFuncs uff) := by
  have hmem : d ∈ computeUnusedFuncs uff ↔ isInCG uff d = false := by
    simp [computeUnusedFuncs, List.mem_filter, hd]
  have hiff : isInCG uff d = false ↔
      (mapLookup uff.filesByCaller d.Name = none ∨
        ∀ ps, mapLookup uff.filesByCaller d.Name = some ps →
          ∀ p ∈ ps, goContains p d.File = false) := by
    unfold isInCG
    cases h : mapLookup uff.filesByCaller d.Name with
    | none => simp
    | some ps => simp [List.any_eq_false]
  refine ⟨hmem.trans hiff, ?_⟩
  rintro ps hps ⟨p, hp, hc⟩ hd'
  rcases (hmem.trans hiff).mp hd' with h | h
  · rw [hps] at h; cases h
  · have := h ps hps p hp
    rw [hc] at this
    cases this

/-- C1 witness data: `bar` is collected and absent from the caller index. -/
theorem computeUnusedFuncs_mem_iff_witness :
    (⟨"bar", "/go/src/proj/main.go"⟩ : UnusedThing) ∈ sampleUff1.funcs ∧
    (⟨"bar", "/go/src/proj/main.go"⟩ : UnusedThing) ∈ computeUnusedFuncs sampleUff1 := by
  have h := computeUnusedFuncs_mem_iff sampleUff1 ⟨"bar", "/go/src/proj/main.go"⟩ (by decide)
  exact ⟨by decide, h.1.mpr (Or.inl (by decide))⟩

/-- Witness data for C5: a prior index entry plus a callgraph with two
`foo` edges and one separator-free edge. -/
def sampleUff5 : UnusedFuncFinder :=
  { NewUnusedFunctionFinder with
    filesByCaller := [("foo", ["pos0"])],
    Callgraph := [⟨"pkg.foo", "/repo/other.go:10"⟩, ⟨"nodot", "p1"⟩,
                  ⟨"sub.pkg.foo", "p2"⟩, ⟨"pkg.bar", "p3"⟩] }

/-- Witness data for C5: every edge name is separator-free. -/
def sampleUff5b : UnusedFuncFinder :=
  { NewUnusedFunctionFinder with
    filesByCaller := [("foo", ["pos0"])],
    Callgraph := [⟨"nodot", "p1"⟩, ⟨"alsonodot", "p2"⟩] }

/-- C5: for every short name, the Caller Index Builder appends, in sequence
order and with duplicates kept, the positions of exactly those callgraph
edges whose name has a package separator and whose after-last-separator
substring is that short name; separator-free edges contribute nothing and
are skipped silently (no log output, and an all-separator-free callgraph
leaves the index untouched). -/
theorem buildFileMap_spec (uff : UnusedFuncFinder) (k : String) :
    lookupD (buildFileMap uff).filesByCaller k =
      lookupD uff.filesByCaller k ++ uff.Callgraph.filterMap (entryContrib k) ∧
    (buildFileMap uff).log = uff.log ∧
    ((∀ e ∈ uff.Callgraph, shortNameOf e.Name = none) →
      (buildFileMap uff).filesByCaller = uff.filesByCaller) := by
  refine ⟨foldl_buildFileMapStep_lookupD _ _ _, rfl, ?_⟩
  intro h
  have key : ∀ (l : List CGEntry) (m : List (String × List String)),
      (∀ e ∈ l, shortNameOf e.Name = none) → l.foldl buildFileMapStep m = m := by
    intro l
    induction l with
    | nil => intro m _; rfl
    | cons e rest ih =>
      intro m hl
      rw [List.foldl_cons]
      have he : buildFileMapStep m e = m := by
        unfold buildFileMapStep
        rw [hl e (by simp)]
      rw [he]
      exact ih m (fun x hx => hl x (by simp [hx]))
  unfold buildFileMap
  simp only []
  exact key uff.Callgraph uff.filesByCaller h

/-- C5 witness: the `foo` positions accumulate behind the prior entry in
edge order, and a separator-free callgraph leaves the index unchanged. -/
theorem buildFileMap_spec_witness :
    lookupD (buildFileMap sampleUff5).filesByCaller "foo" =
      ["pos0", "/repo/other.go:10", "p2"] ∧
    (buildFileMap sampleUff5b).filesByCaller = sampleUff5b.filesByCaller := by
  have h5 := (buildFileMap_spec sampleUff5 "foo").1
  have h5b := (buildFileMap_spec sampleUff5b "foo").2.2 (by decide)
  exact ⟨by rw [h5]; decide, h5b⟩

/-- Witness data for C8: two collected records, the first one reachable. -/
def sampleUff8 : UnusedFuncFinder :=
  { NewUnusedFunctionFinder with
    funcs := [⟨"a", "f1.go"⟩, ⟨"b", "f2.go"⟩],
    filesByCaller := [("a", ["f1.go:2:1"])] }

/-- C8: the findings of the Unused-Set Computer are the subsequence, in
collection order, of exactly the collected records not found in the
callgraph: a subsequence of `funcs`, compatible with any split of `funcs`
into an earlier and a later part, containing precisely the unused
records. -/
theorem computeUnusedFuncs_order (uff : UnusedFuncFinder) :
    (computeUnusedFuncs uff).Sublist uff.funcs ∧
    (∀ pre post, uff.funcs = pre ++ post →
      computeUnusedFuncs uff =
        pre.filter (fun f => !isInCG uff f) ++ post.filter (fun f => !isInCG uff f)) ∧
    (∀ d, d ∈ computeUnusedFuncs uff ↔ d ∈ uff.funcs ∧ isInCG uff d = false) := by
  refine ⟨List.filter_sublist _, ?_, ?_⟩
  · intro pre post h
    simp [computeUnusedFuncs, h, List.filter_append]
  · intro d
    simp [computeUnusedFuncs, List.mem_filter]

/-- C8 witness: with `a` reachable and `b` not, the findings are `[b]`,
the filtered concatenation of the two collection halves. -/
theorem computeUnusedFuncs_order_witness :
    computeUnusedFuncs sampleUff8 =
      List.filter (fun f => !isInCG sampleUff8 f) [⟨"a", "f1.go"⟩] ++
        List.filter (fun f => !isInCG sampleUff8 f) [⟨"b", "f2.go"⟩] ∧
    computeUnusedFuncs sampleUff8 = [⟨"b", "f2.go"⟩] ∧
    (computeUnusedFuncs sampleUff8).Sublist sampleUff8.funcs := by
  have h := computeUnusedFuncs_order sampleUff8
  exact ⟨h.2.1 [⟨"a", "f1.go"⟩] [⟨"b", "f2.go"⟩] (by decide), by decide, h.1⟩

theorem AddPkg_funcs (uff : UnusedFuncFinder) (p : String) :
    (AddPkg uff p).funcs = uff.funcs := by
  unfold AddPkg Logf
  split <;> simp [Errorf]

/-- Witness data for C4: declarations covering every exclusion rule. -/
def sampleDecls4 : List String :=
  ["foo", "main", "TestFoo", "init", "test", "helper", "", "xTesty"]

/-- Witness data for C4: a non-main file holding `sampleDecls4`. -/
def sampleFile4 : SourceFile :=
  ⟨"/go/src/p/f.go", .ok "/go/src/p/f.go", .ok ⟨"p", sampleDecls4⟩⟩

/-- C4: when a file is read successfully, the records added to the run
state are exactly the file's function declarations surviving the exclusion
filter: a declaration whose name contains `"Test"` or equals `"main"`,
`"init"` or `"test"` is never among them, and every other named declaration
is; findings can only ever draw from the collected records. -/
theorem readFuncs_exclusions (gp : List String) (uff u' : UnusedFuncFinder)
    (file : SourceFile) (pf : ParsedFile)
    (hp : file.parsed = .ok pf)
    (hok : readFuncsAndImportsFromFile gp uff file = (u', GoRes.ok ())) :
    u'.funcs = uff.funcs ++ collectNewFuncs file.filename pf.funcDecls ∧
    (∀ s, (goContains s "Test" = true ∨ s = "main" ∨ s = "init" ∨ s = "test") →
      ∀ t ∈ collectNewFuncs file.filename pf.funcDecls, t.Name ≠ s) ∧
    (∀ s ∈ pf.funcDecls, s ≠ "" → goContains s "Test" = false →
      s ≠ "main" → s ≠ "init" → s ≠ "test" →
      (⟨s, file.filename⟩ : UnusedThing) ∈ collectNewFuncs file.filename pf.funcDecls) ∧
    (∀ v : UnusedFuncFinder, ∀ t ∈ computeUnusedFuncs v, t ∈ v.funcs) := by
  refine ⟨?_, ?_, ?_, ?_⟩
  · unfold readFuncsAndImportsFromFile at hok
    rw [hp] at hok
    simp only [] at hok
    revert hok
    split
    · cases hg : getFullPkgName gp file.absRes with
      | err e => intro hok; simp at hok
      | panic => intro hok; simp at hok
      | ok pkg =>
        intro hok
        simp only [Prod.mk.injEq] at hok
        rw [← hok.1]
        simp [AddPkg_funcs]
    · intro hok
      simp only [Prod.mk.injEq] at hok
      rw [← hok.1]
  · rintro s hs t ht heq
    obtain ⟨_, _, hne, hTest, hmain, hinit, htest⟩ := mem_collectNewFuncs.mp ht
    rcases hs with h | h | h | h
    · rw [heq, h] at hTest; cases hTest
    · exact hmain (by rw [heq, h])
    · exact hinit (by rw [heq, h])
    · exact htest (by rw [heq, h])
  · intro s hmem h1 h2 h3 h4 h5
    exact mem_collectNewFuncs.mpr ⟨hmem, rfl, h1, h2, h3, h4, h5⟩
  · intro v t ht
    simp [computeUnusedFuncs, List.mem_filter] at ht
    exact ht.1

/-- C4 witness: from `sampleDecls4` only `foo` and `helper` are recorded;
`main` never is; `helper` is. -/
theorem readFuncs_exclusions_witness :
    (readFuncsAndImportsFromFile ["/go"] NewUnusedFunctionFinder sampleFile4).fst.funcs
      = [⟨"foo", "/go/src/p/f.go"⟩, ⟨"helper", "/go/src/p/f.go"⟩] ∧
    (∀ t ∈ collectNewFuncs "/go/src/p/f.go" sampleDecls4, t.Name ≠ "main") ∧
    (⟨"helper", "/go/src/p/f.go"⟩ : UnusedThing) ∈
      collectNewFuncs "/go/src/p/f.go" sampleDecls4 := by
  have h := readFuncs_exclusions ["/go"] NewUnusedFunctionFinder
    (readFuncsAndImportsFromFile ["/go"] NewUnusedFunctionFinder sampleFile4).fst
    sampleFile4 ⟨"p", sampleDecls4⟩ rfl (by decide)
  refine ⟨?_, ?_, ?_⟩
  · rw [h.1]; decide
  · exact h.2.1 "main" (Or.inr (Or.inl rfl))
  · exact h.2.2.1 "helper" (by decide) (by decide) (by decide) (by decide)
      (by decide) (by decide)

/-- Witness data for C10: a `main`-package file outside every GOPATH root. -/
def sampleFile10 : SourceFile :=
  ⟨"/elsewhere/x.go", .ok "/elsewhere/x.go", .ok ⟨"main", ["foo"]⟩⟩

/-- C10: for a parsed `main`-package file (or with include-all on), a
package-resolution failure makes the collector return the error with the
run state exactly unchanged: no records added, no package registered, the
files-read counter untouched. -/
theorem readFuncs_pkgErr_state_unchanged (gp : List String)
    (uff : UnusedFuncFinder) (file : SourceFile) (pf : ParsedFile) (e : String)
    (hp : file.parsed = .ok pf)
    (hmain : pf.pkgName = "main" ∨ uff.IncludeAll = true)
    (herr : getFullPkgName gp file.absRes = .err e) :
    readFuncsAndImportsFromFile gp uff file =
      (uff, .err ("error getting main package path: " ++ e)) := by
  unfold readFuncsAndImportsFromFile
  rw [hp]
  simp only []
  have hcond : (decide (pf.pkgName = "main") || uff.IncludeAll) = true := by
    rcases hmain with h | h <;> simp [h]
  rw [if_pos hcond, herr]

/-- C10 witness: reading `sampleFile10` with root list `["/go"]` fails the
package resolution and leaves the fresh state untouched. -/
theorem readFuncs_pkgErr_state_unchanged_witness :
    readFuncsAndImportsFromFile ["/go"] NewUnusedFunctionFinder sampleFile10 =
      (NewUnusedFunctionFinder,
        .err ("error getting main package path: " ++
          ("cd " ++ "\x27" ++ "/go" ++ "\x27" ++ " and try again"))) :=
  readFuncs_pkgErr_state_unchanged ["/go"] NewUnusedFunctionFinder sampleFile10
    ⟨"main", ["foo"]⟩ ("cd " ++ "\x27" ++ "/go" ++ "\x27" ++ " and try again")
    rfl (Or.inl rfl) (by decide)

/-- C9: with a non-empty GOPATH root list the package resolver is total (it
never reaches the out-of-bounds last-element access), with an empty root
list the error branch's index access is out of bounds, and Run's up-front
check (`GOPATH != ""`) is exactly what rules the empty list out. -/
theorem getFullPkgName_total (goPaths : List String)
    (absRes : Except String String) (gopath : String) :
    (goPaths ≠ [] → getFullPkgName goPaths absRes ≠ GoRes.panic) ∧
    (∀ abs : String, getFullPkgName [] (Except.ok abs) = GoRes.panic) ∧
    (gopath ≠ "" → splitList gopath ≠ []) ∧
    (gopath ≠ "" → getFullPkgName (splitList gopath) absRes ≠ GoRes.panic) := by
  refine ⟨getFullPkgName_ne_panic goPaths absRes, ?_, splitList_ne_nil gopath, ?_⟩
  · intro abs
    rfl
  · intro h
    exact getFullPkgName_ne_panic _ _ (splitList_ne_nil gopath h)

/-- C9 witness: a concrete root list is total, the empty list panics, and a
concrete non-empty GOPATH splits into a non-empty root list. -/
theorem getFullPkgName_total_witness :
    getFullPkgName ["/go"] (Except.ok "/elsewhere/x.go") ≠ GoRes.panic ∧
    getFullPkgName [] (Except.ok "/elsewhere/x.go") = GoRes.panic ∧
    splitList "/go" ≠ [] := by
  have h := getFullPkgName_total ["/go"] (Except.ok "/elsewhere/x.go") "/go"
  exact ⟨h.1 (by decide), h.2.1 "/elsewhere/x.go", h.2.2.1 (by decide)⟩

/-- C6: with no file arguments or an unset/empty GOPATH, Run fails with an
error while the run state shows no file was read or parsed, no package was
registered, no caller index was built and the oracle was never queried. -/
theorem Run_sanity_checks (oracle : OracleQuery) (gopath : String)
    (uff : UnusedFuncFinder) (args : List RunInput)
    (h : args = [] ∨ gopath = "") :
    (∃ msg, (Run oracle gopath uff args).snd = GoRes.err msg) ∧
    (Run oracle gopath uff args).fst.funcs = uff.funcs ∧
    (Run oracle gopath uff args).fst.numFilesRead = uff.numFilesRead ∧
    (Run oracle gopath uff args).fst.pkgs = uff.pkgs ∧
    (Run oracle gopath uff args).fst.filesByCaller = uff.filesByCaller ∧
    (Run oracle gopath uff args).fst.oracleCalls = uff.oracleCalls := by
  have hrun : ∃ m m', Run oracle gopath uff args = (Errorf uff m, GoRes.err m') := by
    unfold Run
    by_cases hargs : args.isEmpty = true
    · rw [if_pos hargs]
      exact ⟨_, _, rfl⟩
    · rcases h with h | h
      · subst h; simp at hargs
      · subst h
        rw [if_neg hargs, if_pos rfl]
        exact ⟨_, _, rfl⟩
  rcases hrun with ⟨m, m', hr⟩
  rw [hr]
  simp [Errorf]

/-- The oracle used in negative witnesses: it always fails. -/
def nullOracle : OracleQuery := fun _ => .error "oracle unavailable"

/-- C6 witness: a run with GOPATH empty fails and touches nothing. -/
theorem Run_sanity_checks_witness :
    (∃ msg, (Run nullOracle "" NewUnusedFunctionFinder [.file sampleFile4]).snd
        = GoRes.err msg) ∧
    (Run nullOracle "" NewUnusedFunctionFinder [.file sampleFile4]).fst.funcs = [] ∧
    (Run nullOracle "" NewUnusedFunctionFinder
        [.file sampleFile4]).fst.numFilesRead = 0 ∧
    (Run nullOracle "" NewUnusedFunctionFinder
        [.file sampleFile4]).fst.oracleCalls = 0 := by
  have h := Run_sanity_checks nullOracle "" NewUnusedFunctionFinder
    [.file sampleFile4] (Or.inr rfl)
  exact ⟨h.1, h.2.1.trans rfl, h.2.2.1.trans rfl, h.2.2.2.2.2.trans rfl⟩

/-- Witness data for C7: a fresh finder in identifiers-only mode. -/
def sampleUff7 : UnusedFuncFinder := { NewUnusedFunctionFinder with Idents := true }

/-- C7: in identifiers-only mode the oracle is never queried (the
invocation count is unchanged in every case), and when the sanity checks
pass Run returns the identifier-mode result of the collection phase
directly. -/
theorem Run_idents_no_oracle (oracle : OracleQuery) (gopath : String)
    (uff : UnusedFuncFinder) (args : List RunInput)
    (hid : uff.Idents = true) :
    (Run oracle gopath uff args).fst.oracleCalls = uff.oracleCalls ∧
    (args ≠ [] → gopath ≠ "" →
      Run oracle gopath uff args =
        findUnusedIdents (collectAll (splitList gopath) uff args).fst) := by
  unfold Run
  by_cases hargs : args.isEmpty = true
  · rw [if_pos hargs]
    refine ⟨by simp [Errorf], fun hne _ => absurd (List.isEmpty_iff.mp hargs) hne⟩
  · rw [if_neg hargs]
    by_cases hgp : gopath = ""
    · rw [if_pos hgp]
      refine ⟨by simp [Errorf], fun _ hne => absurd hgp hne⟩
    · rw [if_neg hgp]
      rcases hc : collectAll (splitList gopath) uff args with ⟨u, b⟩
      have hb := collectAll_snd_false (splitList gopath) uff args
        (splitList_ne_nil gopath hgp)
      rw [hc] at hb
      simp only [] at hb
      subst hb
      have hp := collectAll_pres (splitList gopath) uff args
      rw [hc] at hp
      have hu : u.Idents = true := hp.2.trans hid
      simp only [hc, hu, if_true]
      exact ⟨hp.1, fun _ _ => by trivial⟩

/-- C7 witness: an identifiers-mode run over one file leaves the oracle
invocation count at zero and short-circuits to the identifier result. -/
theorem Run_idents_no_oracle_witness :
    (Run nullOracle "/go" sampleUff7 [.file sampleFile4]).fst.oracleCalls = 0 ∧
    Run nullOracle "/go" sampleUff7 [.file sampleFile4] =
      findUnusedIdents (collectAll (splitList "/go") sampleUff7 [.file sampleFile4]).fst := by
  have h := Run_idents_no_oracle nullOracle "/go" sampleUff7 [.file sampleFile4] rfl
  exact ⟨h.1.trans rfl, h.2 (List.cons_ne_nil _ _) (by decide)⟩

/-- Witness data for C2: a finder with a pre-supplied reachability graph. -/
def sampleUff2 : UnusedFuncFinder :=
  { NewUnusedFunctionFinder with Callgraph := [⟨"pre.old", "oldpos"⟩] }

/-- The oracle used against C2: it answers with a different graph. -/
def oracle2 : OracleQuery := fun _ => .ok (some [⟨"pkg.new", "newpos"⟩])

/-- C2 counterexample: with a pre-built graph supplied (`Callgraph`
non-empty) and identifiers mode off, Run still invokes the oracle (the
invocation count rises from 0 to 1) and overwrites the supplied graph with
the query result. -/
theorem Run_presupplied_graph_counterexample :
    sampleUff2.Callgraph ≠ [] ∧ sampleUff2.Idents = false ∧
    sampleUff2.oracleCalls = 0 ∧
    (Run oracle2 "/go" sampleUff2 [.file sampleFile4]).fst.oracleCalls = 1 ∧
    (Run oracle2 "/go" sampleUff2 [.file sampleFile4]).fst.Callgraph =
      [⟨"pkg.new", "newpos"⟩] := by decide

/-- C2 amended: supplying a pre-built graph does not bypass the external
query: whenever identifiers-only mode is off and the sanity checks pass,
Run invokes the Reachability Graph Source exactly once, whatever the
`Callgraph` field held. -/
theorem Run_always_queries_oracle (oracle : OracleQuery) (gopath : String)
    (uff : UnusedFuncFinder) (args : List RunInput)
    (hargs : args ≠ []) (hgp : gopath ≠ "") (hid : uff.Idents = false) :
    (Run oracle gopath uff args).fst.oracleCalls = uff.oracleCalls + 1 := by
  unfold Run
  rw [if_neg (fun h => hargs (List.isEmpty_iff.mp h)), if_neg hgp]
  rcases hc : collectAll (splitList gopath) uff args with ⟨u, b⟩
  have hb := collectAll_snd_false (splitList gopath) uff args
    (splitList_ne_nil gopath hgp)
  rw [hc] at hb
  simp only [] at hb
  subst hb
  have hp := collectAll_pres (splitList gopath) uff args
  rw [hc] at hp
  have hu : u.Idents = false := hp.2.trans hid
  simp only [hc, hu, if_false]
  unfold getCallgraphFromOracle
  cases ho : oracle (pkgsAsArray { u with oracleCalls := u.oracleCalls + 1 }) with
  | error e => simp [ho, Errorf]; exact hp.1
  | ok o =>
    cases o with
    | none => simp [ho, Errorf]; exact hp.1
    | some cg => simp [ho, buildFileMap]; exact hp.1

/-- C2 amended witness: the concrete pre-supplied-graph run queries the
oracle exactly once. -/
theorem Run_always_queries_oracle_witness :
    (Run oracle2 "/go" sampleUff2 [.file sampleFile4]).fst.oracleCalls =
      sampleUff2.oracleCalls + 1 :=
  Run_always_queries_oracle oracle2 "/go" sampleUff2 [.file sampleFile4]
    (List.cons_ne_nil _ _) (by decide) rfl

/-- Witness data for C3: a file whose parse fails. -/
def sampleBad3 : SourceFile :=
  ⟨"/go/src/proj/bad.go", .ok "/go/src/proj/bad.go", .error "syntax error"⟩

/-- Witness data for C3: a healthy file visited after the failing one. -/
def sampleGood3 : SourceFile :=
  ⟨"/go/src/proj/good.go", .ok "/go/src/proj/good.go", .ok ⟨"proj", ["goodFunc"]⟩⟩

/-- Witness data for C3: the directory's walk order puts the bad file
first. -/
def sampleDir3 : List WalkEntry :=
  [⟨none, false, sampleBad3⟩, ⟨none, false, sampleGood3⟩]

/-- The oracle used in the C3 runs: an empty graph. -/
def oracle3 : OracleQuery := fun _ => .ok (some [])

/-- C3 counterexample: with a failing file first in the directory, the
healthy file after it is never collected (the run yields no declarations),
although on its own that file's declaration is collected — refuting that
traversal continues with the remaining files of the directory. -/
theorem parse_failure_counterexample :
    (Run oracle3 "/go" NewUnusedFunctionFinder
        [.dir "/go/src/proj" sampleDir3]).fst.funcs = [] ∧
    (Run oracle3 "/go" NewUnusedFunctionFinder
        [.dir "/go/src/proj" [⟨none, false, sampleGood3⟩]]).fst.funcs =
      [⟨"goodFunc", "/go/src/proj/good.go"⟩] := by decide

/-- C3 amended: a parse failure on a file inside a directory is reported to
the log sink and does not abort the run — the collection loop swallows the
error and proceeds to the remaining top-level inputs — but it aborts that
directory's traversal: the walk stops at the failing file and nothing is
collected from the entries after it. -/
theorem parse_failure_aborts_dir (goPaths : List String)
    (uff : UnusedFuncFinder) (bad : WalkEntry) (rest : List WalkEntry)
    (dirname e : String)
    (hw : bad.walkErrMsg = none) (hd : bad.isDirInfo = false)
    (hcan : canReadSourceFile uff bad.file.filename = true)
    (hp : bad.file.parsed = .error e) :
    readDir goPaths uff (bad :: rest) = (uff, GoRes.err e) ∧
    collectInput goPaths uff (.dir dirname (bad :: rest)) =
      (Errorf (Errorf uff ("Error reading " ++ "\x27" ++ dirname ++ "\x27" ++
        " directory: " ++ e)) "Continuing...", false) ∧
    (∀ more, collectAll goPaths uff (.dir dirname (bad :: rest) :: more) =
      collectAll goPaths
        (Errorf (Errorf uff ("Error reading " ++ "\x27" ++ dirname ++ "\x27" ++
          " directory: " ++ e)) "Continuing...") more) := by
  have hread : readFuncsAndImportsFromFile goPaths uff bad.file = (uff, GoRes.err e) := by
    unfold readFuncsAndImportsFromFile
    rw [hp]
  have h1 : readDir goPaths uff (bad :: rest) = (uff, GoRes.err e) := by
    rcases bad with ⟨w, d, file⟩
    simp only [] at hw hd hcan hread
    subst hw
    subst hd
    simp [readDir, hcan, hread]
  have h2 : collectInput goPaths uff (.dir dirname (bad :: rest)) =
      (Errorf (Errorf uff ("Error reading " ++ "\x27" ++ dirname ++ "\x27" ++
        " directory: " ++ e)) "Continuing...", false) := by
    simp only [collectInput, h1]
  refine ⟨h1, h2, fun more => ?_⟩
  simp only [collectAll, h2]

/-- C3 amended witness: the concrete bad-then-good directory aborts at the
bad file with the error logged and the collection loop moving on. -/
theorem parse_failure_aborts_dir_witness :
    readDir ["/go"] NewUnusedFunctionFinder sampleDir3 =
      (NewUnusedFunctionFinder, GoRes.err "syntax error") ∧
    collectInput ["/go"] NewUnusedFunctionFinder (.dir "/go/src/proj" sampleDir3) =
      (Errorf (Errorf NewUnusedFunctionFinder
        ("Error reading " ++ "\x27" ++ "/go/src/proj" ++ "\x27" ++
          " directory: " ++ "syntax error")) "Continuing...", false) ∧
    collectAll ["/go"] NewUnusedFunctionFinder
        [.dir "/go/src/proj" sampleDir3] =
      (Errorf (Errorf NewUnusedFunctionFinder
        ("Error reading " ++ "\x27" ++ "/go/src/proj" ++ "\x27" ++
          " directory: " ++ "syntax error")) "Continuing...", false) := by
  have h := parse_failure_aborts_dir ["/go"] NewUnusedFunctionFinder
    ⟨none, false, sampleBad3⟩ [⟨none, false, sampleGood3⟩] "/go/src/proj"
    "syntax error" rfl rfl (by decide) rfl
  exact ⟨h.1, h.2.1, (h.2.2 []).trans rfl⟩
